import Mathlib

/-!
Shallow embedding of the git command layer of carsonfeng/ZCode
(package git: the command builders and orchestration in git.go and the
functional options file). External collaborators (the version-control
binary, the shell, the filesystem and the template renderer) are passed
in explicitly as oracles; every external execution is recorded in a
trace so that theorems can speak about which commands were run.
-/

namespace git

/-- An external command invocation: program name and argument vector,
mirroring the data handed to exec.Command in the source. -/
structure Cmd where
  prog : String
  args : List String
deriving DecidableEq, Repr

/-- The environment executing external commands: for the Output method of a
command it yields either the raw stdout text or an execution error. -/
abbrev ExecEnv := Cmd → Except String String

/-- The ordered list of external commands executed so far. -/
abbrev Trace := List Cmd

/-- Execute a command through the environment and record it in the trace. -/
def runOutput (ex : ExecEnv) (cmd : Cmd) (tr : Trace) : Except String String × Trace :=
  (ex cmd, tr ++ [cmd])

/-- Configuration draft mutated by options, mirroring struct config. Field
defaults are the Go zero values given by new(config). -/
structure config where
  diffUnified : Int := 0
  excludeList : List String := []
  isAmend : Bool := false
  diffTagPrefix : String := ""
  diffList : List String := []
  commitId : String := ""
deriving DecidableEq, Repr

/-- The Option interface of the source (a capability mutating one field of
the draft configuration through its apply method) is embedded as the
function type on configurations. -/
abbrev Option := config → config

/-- WithDiffUnified generates diffs with the given number of context lines. -/
def WithDiffUnified (val : Int) : Option := fun c => { c with diffUnified := val }

/-- WithExcludeList sets the excludeList field; if the given value is empty,
it does nothing. -/
def WithExcludeList (val : List String) : Option := fun c =>
  if val.length = 0 then c else { c with excludeList := val }

/-- WithEnableAmend sets the isAmend field. -/
def WithEnableAmend (val : Bool) : Option := fun c => { c with isAmend := val }

/-- WithDiffTagPrefix sets the diffTagPrefix field. -/
def WithDiffTagPrefix (val : String) : Option := fun c => { c with diffTagPrefix := val }

/-- WithDiffList sets the diffList field. -/
def WithDiffList (val : List String) : Option := fun c => { c with diffList := val }

/-- WithCommitId sets the commitId field. -/
def WithCommitId (val : String) : Option := fun c => { c with commitId := val }

/-- The built-in exclusion patterns excludeFromDiff. -/
def excludeFromDiff : List String :=
  ["package-lock.json", "pnpm-lock.yaml", "*.lock", "go.sum"]

/-- The immutable Command value built by New. -/
structure Command where
  diffUnified : Int
  excludeList : List String
  isAmend : Bool
  diffTagPrefix : String
deriving DecidableEq, Repr

/-- New instantiates a config with default values, applies each option in
order, and builds the Command, appending the user-defined excludeList to
the default excludeFromDiff. -/
def New (opts : List Option) : Command :=
  let cfg := opts.foldl (fun c o => o c) {}
  { diffUnified := cfg.diffUnified
    excludeList := excludeFromDiff ++ cfg.excludeList
    isAmend := cfg.isAmend
    diffTagPrefix := cfg.diffTagPrefix }

/-- excludeFiles wraps each exclusion entry as an exclude-at-top pathspec. -/
def Command.excludeFiles (c : Command) : List String :=
  c.excludeList.map (fun f => ":(exclude,top)" ++ f)

/-- Character-list worker for the model of strings.Split below. -/
def splitCharAux (sep : Char) : List Char → List Char → List String
  | [], acc => [String.mk acc.reverse]
  | ch :: rest, acc =>
    if ch = sep then String.mk acc.reverse :: splitCharAux sep rest []
    else splitCharAux sep rest (ch :: acc)

/-- Model of the standard library strings.Split with the single-space
separator: splits the string at every space, keeping empty tokens, so the
empty string yields one empty token. -/
def stringsSplitSpace (s : String) : List String :=
  splitCharAux ' ' s.data []

/-- latestTwoTags builds the shell pipeline listing the latest two tags
whose names start with the given head, joined by a single space. -/
def Command.latestTwoTags (c : Command) (tagGrepHead : String) : Cmd :=
  { prog := "bash",
    args := ["-c",
      "git tag --sort=-creatordate | grep '^" ++ tagGrepHead ++
        "' | head -n 2 | tr '\\n' ' ' | sed 's/ $//'"] }

/-- IsDiffTagT is the traced embedding of IsDiffTag, which judges whether to
compare the differences between the latest two tags: when the tag prefix
is non-empty it runs the tag-listing command; on execution error it
returns (false, empty, empty); otherwise it splits the output on a single
space and, exactly when the split has length two, reports the two tokens. -/
def Command.IsDiffTagT (ex : ExecEnv) (c : Command) (tr : Trace) :
    (Bool × String × String) × Trace :=
  if c.diffTagPrefix != "" then
    let r := runOutput ex (Command.latestTwoTags c c.diffTagPrefix) tr
    match r.1 with
    | .error _ => ((false, "", ""), r.2)
    | .ok output =>
      let tags := stringsSplitSpace output
      if tags.length = 2 then
        ((true, tags.getD 0 "", tags.getD 1 ""), r.2)
      else
        ((true, "", ""), r.2)
  else
    ((false, "", ""), tr)

/-- IsDiffTag run on an empty trace, returning only the triple. -/
def Command.IsDiffTag (ex : ExecEnv) (c : Command) : Bool × String × String :=
  (Command.IsDiffTagT ex c []).1

/-- diffNamesT builds the name-listing invocation (traced, because in tag
mode the construction itself executes the tag listing via IsDiffTag). -/
def Command.diffNamesT (ex : ExecEnv) (c : Command) (tr : Trace) : Cmd × Trace :=
  let args := ["diff", "--name-only"]
  if c.diffTagPrefix != "" then
    let r := Command.IsDiffTagT ex c tr
    let is := r.1.1
    let tag1 := r.1.2.1
    let tag2 := r.1.2.2
    let args := if is && (tag1 != "") && (tag2 != "") then args ++ [tag1, tag2] else args
    ({ prog := "git", args := args ++ Command.excludeFiles c }, r.2)
  else
    let args := if c.isAmend then args ++ ["HEAD^", "HEAD"] else args ++ ["--staged"]
    ({ prog := "git", args := args ++ Command.excludeFiles c }, tr)

/-- diffNames on an empty trace, returning only the command. -/
def Command.diffNames (ex : ExecEnv) (c : Command) : Cmd :=
  (Command.diffNamesT ex c []).1

/-- diffFilesT builds the full-diff invocation (traced, as for diffNamesT). -/
def Command.diffFilesT (ex : ExecEnv) (c : Command) (tr : Trace) : Cmd × Trace :=
  let args := ["diff", "--ignore-all-space", "--diff-algorithm=minimal",
    "--unified=" ++ toString c.diffUnified]
  if c.diffTagPrefix != "" then
    let r := Command.IsDiffTagT ex c tr
    let is := r.1.1
    let tag1 := r.1.2.1
    let tag2 := r.1.2.2
    let args := if is && (tag1 != "") && (tag2 != "") then args ++ [tag1, tag2] else args
    ({ prog := "git", args := args ++ Command.excludeFiles c }, r.2)
  else
    let args := if c.isAmend then args ++ ["HEAD^", "HEAD"] else args ++ ["--staged"]
    ({ prog := "git", args := args ++ Command.excludeFiles c }, tr)

/-- diffFiles on an empty trace, returning only the command. -/
def Command.diffFiles (ex : ExecEnv) (c : Command) : Cmd :=
  (Command.diffFilesT ex c []).1

/-- DiffFilesT is the traced embedding of DiffFiles: run the name-listing
command; surface its error; on empty raw output fail with the staging
precondition error; otherwise run the full-diff command and return its
raw output or its error. -/
def Command.DiffFilesT (ex : ExecEnv) (c : Command) (tr : Trace) :
    Except String String × Trace :=
  let n := Command.diffNamesT ex c tr
  let r1 := runOutput ex n.1 n.2
  match r1.1 with
  | .error e => (.error e, r1.2)
  | .ok output =>
    if output = "" then
      (.error "please add your staged changes using git add <files...>", r1.2)
    else
      let f := Command.diffFilesT ex c r1.2
      let r2 := runOutput ex f.1 f.2
      match r2.1 with
      | .error e => (.error e, r2.2)
      | .ok output2 => (.ok output2, r2.2)

/-- DiffFiles on an empty trace, returning only the result. -/
def Command.DiffFiles (ex : ExecEnv) (c : Command) : Except String String :=
  (Command.DiffFilesT ex c []).1

/-- commit builds the commit invocation with no-verify, signoff and the
message argument, appending the amend flag when isAmend is set. -/
def Command.commit (c : Command) (val : String) : Cmd :=
  let args := ["commit", "--no-verify", "--signoff", "--message=" ++ val]
  let args := if c.isAmend then args ++ ["--amend"] else args
  { prog := "git", args := args }

/-- Commit runs the commit invocation and returns its raw output or error. -/
def Command.Commit (ex : ExecEnv) (c : Command) (val : String) : Except String String :=
  match ex (Command.commit c val) with
  | .error e => .error e
  | .ok output => .ok output

/-- gitDir builds the git-directory resolution query. -/
def Command.gitDir (c : Command) : Cmd :=
  { prog := "git", args := ["rev-parse", "--git-dir"] }

/-- GitDir runs the git-directory query and returns its raw output or error. -/
def Command.GitDir (ex : ExecEnv) (c : Command) : Except String String :=
  match ex (Command.gitDir c) with
  | .error e => .error e
  | .ok output => .ok output

/-- hookPath builds the hooks-directory resolution query. -/
def Command.hookPath (c : Command) : Cmd :=
  { prog := "git", args := ["rev-parse", "--git-path", "hooks"] }

/-- Filesystem model: an association list of file paths and contents. -/
abbrev FS := List (String × String)

/-- Model of the external existence check file.IsFile. -/
def isFile (fs : FS) (target : String) : Bool :=
  fs.any (fun f => f.1 == target)

/-- Model of the external write primitive os.WriteFile; only existence and
content are tracked, not the 0755 permission bits, and the write itself
is assumed to succeed. -/
def writeFile (fs : FS) (p content : String) : FS :=
  fs.filter (fun f => f.1 != p) ++ [(p, content)]

/-- Model of os.Remove for a file path (assumed to succeed when invoked). -/
def removeFile (fs : FS) (p : String) : FS :=
  fs.filter (fun f => f.1 != p)

/-- Model of the standard library two-segment path.Join applied to the
resolved hooks directory and the hook filename. -/
def pathJoin (a b : String) : String :=
  if a = "" then b else a ++ "/" ++ b

/-- Whitespace test for the model of strings.TrimSpace. -/
def isSpaceChar (ch : Char) : Bool :=
  ch = ' ' || ch = '\t' || ch = '\n' || ch = '\r'

/-- Model of the standard library strings.TrimSpace: drops leading and
trailing whitespace characters from the resolved hooks path. -/
def trimSpace (s : String) : String :=
  String.mk (((s.data.dropWhile isSpaceChar).reverse.dropWhile isSpaceChar).reverse)

/-- Modelled from the spec: the constant HookPrepareCommitMessageTemplate is
declared outside the provided sources; the spec fixes the hook file to the
prepare-commit-message hook under a fixed filename constant joined to the
resolved hooks directory. -/
def HookPrepareCommitMessageTemplate : String := "prepare-commit-msg"

/-- InstallHook resolves the hooks directory, fails with the already-exists
error when the target file is present, otherwise renders the named
template (the external renderer util.GetTemplateByBytes is the oracle
tmpl) and writes the target file. Whitespace around the resolved path is
trimmed as by strings.TrimSpace. -/
def Command.InstallHook (ex : ExecEnv) (tmpl : String → Except String String)
    (fs : FS) (c : Command) : Except String Unit × FS :=
  match ex (Command.hookPath c) with
  | .error e => (.error e, fs)
  | .ok hp =>
    let target := pathJoin (trimSpace hp) HookPrepareCommitMessageTemplate
    if isFile fs target then
      (.error "hook file prepare-commit-msg exist.", fs)
    else
      match tmpl HookPrepareCommitMessageTemplate with
      | .error e => (.error e, fs)
      | .ok content => (.ok (), writeFile fs target content)

/-- UninstallHook resolves the hooks directory, fails with the not-exist
error when the target file is absent, and otherwise deletes it. -/
def Command.UninstallHook (ex : ExecEnv) (fs : FS) (c : Command) :
    Except String Unit × FS :=
  match ex (Command.hookPath c) with
  | .error e => (.error e, fs)
  | .ok hp =>
    let target := pathJoin (trimSpace hp) HookPrepareCommitMessageTemplate
    if !(isFile fs target) then
      (.error "hook file prepare-commit-msg is not exist.", fs)
    else
      (.ok (), removeFile fs target)

/-- An execution environment returning the same result for every command. -/
def exConst (r : Except String String) : ExecEnv := fun _ => r

/-- A command built with only a tag prefix configured. -/
def cTag : Command := New [WithDiffTagPrefix "v"]

/-- A command built with no options. -/
def cPlain : Command := New []

/-- A command built with only the amend flag set. -/
def cAmend : Command := New [WithEnableAmend true]

/-- A template renderer returning the same result for every template name. -/
def tmplConst (r : Except String String) : String → Except String String := fun _ => r

/-- Helper: with a non-empty tag prefix and a successful tag listing,
IsDiffTag is determined by the space-split of the raw output. -/
theorem IsDiffTag_ok_eq (ex : ExecEnv) (c : Command) (out : String)
    (hp : (c.diffTagPrefix != "") = true)
    (h : ex (Command.latestTwoTags c c.diffTagPrefix) = .ok out) :
    Command.IsDiffTag ex c =
      (if (stringsSplitSpace out).length = 2 then
        (true, (stringsSplitSpace out).getD 0 "", (stringsSplitSpace out).getD 1 "")
      else (true, "", "")) := by
  have hT : Command.IsDiffTagT ex c [] =
      ((if (stringsSplitSpace out).length = 2 then
          (true, (stringsSplitSpace out).getD 0 "", (stringsSplitSpace out).getD 1 "")
        else (true, "", "")), [Command.latestTwoTags c c.diffTagPrefix]) := by
    simp only [Command.IsDiffTagT, runOutput, hp, if_true, h]
    split <;> rfl
  simp [Command.IsDiffTag, hT]

/-- Helper: with a non-empty tag prefix and a failed tag listing, IsDiffTag
reports no tag mode at all. -/
theorem IsDiffTag_err_eq (ex : ExecEnv) (c : Command) (e : String)
    (hp : (c.diffTagPrefix != "") = true)
    (h : ex (Command.latestTwoTags c c.diffTagPrefix) = .error e) :
    Command.IsDiffTag ex c = (false, "", "") := by
  simp only [Command.IsDiffTag, Command.IsDiffTagT, runOutput, hp, if_true]
  rw [h]

/-- C1 counterexample: with tag prefix "v" configured, a failed tag listing
and the amend flag unset, the claim demands that the name-listing vector
contain the staged marker, but it does not. -/
theorem C1_no_fallthrough_counterexample :
    ¬ ("--staged" ∈ (Command.diffNames (exConst (.error "boom")) cTag).args) := by
  decide

/-- C1 (amended): when the tag prefix is non-empty but tag resolution yields
no usable pair, mode selection does not fall through to the non-tag branch:
neither the tag pair nor the amend range nor the staged marker is added, and
both argument vectors are exactly the base flags followed by the exclusion
pathspecs, regardless of the amend flag. -/
theorem C1_amended (ex : ExecEnv) (c : Command)
    (hp : (c.diffTagPrefix != "") = true)
    (hg : ((Command.IsDiffTag ex c).1 && ((Command.IsDiffTag ex c).2.1 != "") &&
      ((Command.IsDiffTag ex c).2.2 != "")) = false) :
    (Command.diffNames ex c).args = ["diff", "--name-only"] ++ Command.excludeFiles c ∧
    (Command.diffFiles ex c).args =
      ["diff", "--ignore-all-space", "--diff-algorithm=minimal",
        "--unified=" ++ toString c.diffUnified] ++ Command.excludeFiles c := by
  simp only [Command.IsDiffTag] at hg
  constructor
  · simp only [Command.diffNames, Command.diffNamesT, hp, if_true]
    simp [hg]
  · simp only [Command.diffFiles, Command.diffFilesT, hp, if_true]
    simp [hg]

/-- C1 witness: the amended statement at the concrete failing-tag-listing
configuration. -/
theorem C1_amended_witness :
    (Command.diffNames (exConst (.error "boom")) cTag).args =
      ["diff", "--name-only"] ++ Command.excludeFiles cTag ∧
    (Command.diffFiles (exConst (.error "boom")) cTag).args =
      ["diff", "--ignore-all-space", "--diff-algorithm=minimal",
        "--unified=" ++ toString cTag.diffUnified] ++ Command.excludeFiles cTag :=
  C1_amended (exConst (.error "boom")) cTag (by decide) (by decide)

/-- C2 counterexample: a Command built with no options has context-line
count 0, not 3, and its full-diff vector carries unified zero, not three. -/
theorem C2_default_counterexample :
    (New []).diffUnified = 0 ∧
    ¬ ("--unified=3" ∈ (Command.diffFiles (exConst (.error "boom")) (New [])).args) ∧
    "--unified=0" ∈ (Command.diffFiles (exConst (.error "boom")) (New [])).args := by
  decide

/-- C2 (amended): with no context-line option the count defaults to the zero
value 0, so the full-diff argument vector contains unified zero for every
execution environment. -/
theorem C2_amended (ex : ExecEnv) :
    (New []).diffUnified = 0 ∧
    "--unified=0" ∈ (Command.diffFiles ex (New [])).args := by
  constructor
  · rfl
  · have h : (Command.diffFiles ex (New [])).args =
        ["diff", "--ignore-all-space", "--diff-algorithm=minimal", "--unified=0",
          "--staged"] ++ Command.excludeFiles (New []) := rfl
    rw [h]
    decide

/-- C3 counterexample: with tag prefix "v" configured and a failing
tag-listing execution, IsDiffTag returns false with two empty tags, not the
claimed true with two empty tags. -/
theorem C3_counterexample :
    Command.IsDiffTag (exConst (.error "boom")) cTag ≠ (true, "", "") ∧
    Command.IsDiffTag (exConst (.error "boom")) cTag = (false, "", "") := by
  decide

/-- C3 (amended): with a non-empty tag prefix, IsDiffTag reports is true
whenever the tag-listing execution succeeds, regardless of whether a usable
pair was found; when the execution fails it instead returns false with two
empty tags. -/
theorem C3_amended (ex : ExecEnv) (c : Command)
    (hp : (c.diffTagPrefix != "") = true) :
    (∀ out, ex (Command.latestTwoTags c c.diffTagPrefix) = .ok out →
      (Command.IsDiffTag ex c).1 = true) ∧
    (∀ e, ex (Command.latestTwoTags c c.diffTagPrefix) = .error e →
      Command.IsDiffTag ex c = (false, "", "")) := by
  constructor
  · intro out hout
    rw [IsDiffTag_ok_eq ex c out hp hout]
    split <;> rfl
  · intro e he
    exact IsDiffTag_err_eq ex c e hp he

/-- C3 witness: the amended statement at concrete environments, one
succeeding and one failing. -/
theorem C3_amended_witness :
    (Command.IsDiffTag (exConst (.ok "a b")) cTag).1 = true ∧
    Command.IsDiffTag (exConst (.error "boom")) cTag = (false, "", "") :=
  ⟨(C3_amended (exConst (.ok "a b")) cTag (by decide)).1 "a b" rfl,
    (C3_amended (exConst (.error "boom")) cTag (by decide)).2 "boom" rfl⟩

/-- C4 counterexample: on tag-listing output of one token followed by a
space, the split yields two tokens of which one is empty, and IsDiffTag
returns them as they are instead of the claimed two empty tags. -/
theorem C4_counterexample :
    Command.IsDiffTag (exConst (.ok "v1.2.0 ")) cTag = (true, "v1.2.0", "") ∧
    Command.IsDiffTag (exConst (.ok "v1.2.0 ")) cTag ≠ (true, "", "") := by
  decide

/-- C4 (amended): with a non-empty tag prefix and a successful tag listing,
IsDiffTag splits the output on a single space and returns the two tokens
exactly when the split has length two, without checking them for emptiness:
a two-tag output yields both tags, a single token or empty output yields two
empty tags, a three-token output yields two empty tags, and a token followed
by a trailing space yields that token and an empty second tag. -/
theorem C4_amended (ex : ExecEnv) (c : Command)
    (hp : (c.diffTagPrefix != "") = true) :
    (ex (Command.latestTwoTags c c.diffTagPrefix) = .ok "v1.2.0 v1.1.0" →
      Command.IsDiffTag ex c = (true, "v1.2.0", "v1.1.0")) ∧
    (ex (Command.latestTwoTags c c.diffTagPrefix) = .ok "v1.2.0" →
      Command.IsDiffTag ex c = (true, "", "")) ∧
    (ex (Command.latestTwoTags c c.diffTagPrefix) = .ok "" →
      Command.IsDiffTag ex c = (true, "", "")) ∧
    (ex (Command.latestTwoTags c c.diffTagPrefix) = .ok "a b c" →
      Command.IsDiffTag ex c = (true, "", "")) ∧
    (ex (Command.latestTwoTags c c.diffTagPrefix) = .ok "v1.2.0 " →
      Command.IsDiffTag ex c = (true, "v1.2.0", "")) := by
  refine ⟨?_, ?_, ?_, ?_, ?_⟩ <;> intro h <;> rw [IsDiffTag_ok_eq ex c _ hp h] <;> decide

/-- C4 witness: the amended statement at a concrete two-tag output. -/
theorem C4_amended_witness :
    Command.IsDiffTag (exConst (.ok "v1.2.0 v1.1.0")) cTag = (true, "v1.2.0", "v1.1.0") :=
  (C4_amended (exConst (.ok "v1.2.0 v1.1.0")) cTag (by decide)).1 rfl

/-- C5: DiffFiles first runs the name-listing command; a failed execution
surfaces that error; raw output exactly the empty string fails with the
distinguished staging-precondition error with no further command executed
(the trace ends at the name-listing run); otherwise the full-diff command is
executed and its raw output or its error is returned. -/
theorem C5_diffFiles_contract (ex : ExecEnv) (c : Command) :
    (∀ e, ex (Command.diffNamesT ex c []).1 = .error e →
      Command.DiffFilesT ex c [] =
        (.error e,
          (Command.diffNamesT ex c []).2 ++ [(Command.diffNamesT ex c []).1])) ∧
    (ex (Command.diffNamesT ex c []).1 = .ok "" →
      Command.DiffFilesT ex c [] =
        (.error "please add your staged changes using git add <files...>",
          (Command.diffNamesT ex c []).2 ++ [(Command.diffNamesT ex c []).1])) ∧
    (∀ out, ex (Command.diffNamesT ex c []).1 = .ok out → out ≠ "" →
      Command.DiffFilesT ex c [] =
        (ex (Command.diffFilesT ex c
            ((Command.diffNamesT ex c []).2 ++ [(Command.diffNamesT ex c []).1])).1,
          (Command.diffFilesT ex c
            ((Command.diffNamesT ex c []).2 ++ [(Command.diffNamesT ex c []).1])).2 ++
          [(Command.diffFilesT ex c
            ((Command.diffNamesT ex c []).2 ++ [(Command.diffNamesT ex c []).1])).1])) := by
  refine ⟨?_, ?_, ?_⟩
  · intro e he
    simp [Command.DiffFilesT, runOutput, he]
  · intro h0
    simp [Command.DiffFilesT, runOutput, h0]
  · intro out hout hne
    rcases h2 : ex (Command.diffFilesT ex c
        ((Command.diffNamesT ex c []).2 ++ [(Command.diffNamesT ex c []).1])).1 with e2 | o2 <;>
      simp [Command.DiffFilesT, runOutput, hout, hne, h2]

/-- C5 witness: the staging-precondition branch at a concrete environment
whose name listing returns the empty string. -/
theorem C5_witness :
    Command.DiffFilesT (exConst (.ok "")) cPlain [] =
      (.error "please add your staged changes using git add <files...>",
        (Command.diffNamesT (exConst (.ok "")) cPlain []).2 ++
          [(Command.diffNamesT (exConst (.ok "")) cPlain []).1]) :=
  (C5_diffFiles_contract (exConst (.ok "")) cPlain).2.1 rfl

/-- C6: the exclusion list of every built Command begins with the four
built-in defaults in order followed by exactly the configured additions, and
an empty WithExcludeList option is a no-op that removes nothing. -/
theorem C6_excludeList_invariant (opts : List Option) :
    (New opts).excludeList =
      ["package-lock.json", "pnpm-lock.yaml", "*.lock", "go.sum"] ++
        (opts.foldl (fun (c : config) (o : Option) => o c) {}).excludeList ∧
    New (opts ++ [WithExcludeList []]) = New opts := by
  constructor
  · rfl
  · simp [New, WithExcludeList, List.foldl_append]

/-- C7: with empty tag prefix and the amend flag unset the name-listing
vector is the base flags, then the staged marker, then one exclude-at-top
pathspec per exclusion entry; with empty tag prefix and the amend flag set
both diff vectors carry the amend range and the commit vector carries the
amend flag. -/
theorem C7_mode_arguments (ex : ExecEnv) (c : Command) (m : String) :
    (c.diffTagPrefix = "" → c.isAmend = false →
      (Command.diffNames ex c).args =
        ["diff", "--name-only", "--staged"] ++
          c.excludeList.map (fun f => ":(exclude,top)" ++ f)) ∧
    (c.diffTagPrefix = "" → c.isAmend = true →
      (Command.diffNames ex c).args =
        ["diff", "--name-only", "HEAD^", "HEAD"] ++
          c.excludeList.map (fun f => ":(exclude,top)" ++ f) ∧
      (Command.diffFiles ex c).args =
        ["diff", "--ignore-all-space", "--diff-algorithm=minimal",
          "--unified=" ++ toString c.diffUnified, "HEAD^", "HEAD"] ++
          c.excludeList.map (fun f => ":(exclude,top)" ++ f) ∧
      (Command.commit c m).args =
        ["commit", "--no-verify", "--signoff", "--message=" ++ m, "--amend"]) := by
  constructor
  · intro h1 h2
    simp [Command.diffNames, Command.diffNamesT, Command.excludeFiles, h1, h2]
  · intro h1 h2
    refine ⟨?_, ?_, ?_⟩ <;>
      simp [Command.diffNames, Command.diffNamesT, Command.diffFiles,
        Command.diffFilesT, Command.commit, Command.excludeFiles, h1, h2]

/-- C7 witness: the staged shape for the no-option Command and the amend
shapes for the amend-only Command. -/
theorem C7_witness :
    (Command.diffNames (exConst (.error "boom")) cPlain).args =
      ["diff", "--name-only", "--staged"] ++
        cPlain.excludeList.map (fun f => ":(exclude,top)" ++ f) ∧
    (Command.diffNames (exConst (.error "boom")) cAmend).args =
      ["diff", "--name-only", "HEAD^", "HEAD"] ++
        cAmend.excludeList.map (fun f => ":(exclude,top)" ++ f) ∧
    (Command.commit cAmend "m").args =
      ["commit", "--no-verify", "--signoff", "--message=" ++ "m", "--amend"] :=
  ⟨(C7_mode_arguments (exConst (.error "boom")) cPlain "m").1 rfl rfl,
    ((C7_mode_arguments (exConst (.error "boom")) cAmend "m").2 rfl rfl).1,
    ((C7_mode_arguments (exConst (.error "boom")) cAmend "m").2 rfl rfl).2.2⟩

/-- C8: once the hooks directory resolves, InstallHook on an existing target
file fails with the already-exists error and returns the filesystem
unchanged, and UninstallHook on an absent target file fails with the
not-exist error and returns the filesystem unchanged: in both conflict
cases no write and no delete occurs. -/
theorem C8_hook_conflicts (ex : ExecEnv) (tmpl : String → Except String String)
    (fs : FS) (c : Command) (d : String)
    (hd : ex (Command.hookPath c) = .ok d) :
    (isFile fs (pathJoin (trimSpace d) HookPrepareCommitMessageTemplate) = true →
      Command.InstallHook ex tmpl fs c =
        (.error "hook file prepare-commit-msg exist.", fs)) ∧
    (isFile fs (pathJoin (trimSpace d) HookPrepareCommitMessageTemplate) = false →
      Command.UninstallHook ex fs c =
        (.error "hook file prepare-commit-msg is not exist.", fs)) := by
  constructor
  · intro h
    simp [Command.InstallHook, hd, h]
  · intro h
    simp [Command.UninstallHook, hd, h]

/-- C8 witness: both conflict cases at a concrete resolved hooks directory. -/
theorem C8_witness :
    Command.InstallHook (exConst (.ok "hooks")) (tmplConst (.ok "T"))
        [("hooks/prepare-commit-msg", "old")] cPlain =
      (.error "hook file prepare-commit-msg exist.",
        [("hooks/prepare-commit-msg", "old")]) ∧
    Command.UninstallHook (exConst (.ok "hooks")) [] cPlain =
      (.error "hook file prepare-commit-msg is not exist.", []) :=
  ⟨(C8_hook_conflicts (exConst (.ok "hooks")) (tmplConst (.ok "T"))
      [("hooks/prepare-commit-msg", "old")] cPlain "hooks" rfl).1 (by decide),
    (C8_hook_conflicts (exConst (.ok "hooks")) (tmplConst (.ok "T"))
      [] cPlain "hooks" rfl).2 (by decide)⟩

/-- Helper: a filesystem holding no file at the given path is unchanged by
filtering that path away. -/
theorem filter_ne_of_absent (fs : FS) (t : String) (h : isFile fs t = false) :
    fs.filter (fun f => f.1 != t) = fs := by
  rw [List.filter_eq_self]
  intro a ha
  simp only [isFile, List.any_eq_false] at h
  simpa using h a ha

/-- C9: from a state where the hook file is absent, a successful InstallHook
followed by UninstallHook succeeds in both steps and returns the filesystem
to exactly its original state, the hook file absent again. -/
theorem C9_hook_roundtrip (ex : ExecEnv) (tmpl : String → Except String String)
    (fs : FS) (c : Command) (d content : String)
    (hd : ex (Command.hookPath c) = .ok d)
    (ht : tmpl HookPrepareCommitMessageTemplate = .ok content)
    (habs : isFile fs (pathJoin (trimSpace d) HookPrepareCommitMessageTemplate) = false) :
    (Command.InstallHook ex tmpl fs c).1 = .ok () ∧
    (Command.UninstallHook ex (Command.InstallHook ex tmpl fs c).2 c).1 = .ok () ∧
    (Command.UninstallHook ex (Command.InstallHook ex tmpl fs c).2 c).2 = fs := by
  have hinst : Command.InstallHook ex tmpl fs c =
      (.ok (), fs ++ [(pathJoin (trimSpace d) HookPrepareCommitMessageTemplate, content)]) := by
    simp [Command.InstallHook, hd, habs, ht, writeFile, filter_ne_of_absent fs _ habs]
  have hpresent :
      isFile (fs ++ [(pathJoin (trimSpace d) HookPrepareCommitMessageTemplate, content)])
        (pathJoin (trimSpace d) HookPrepareCommitMessageTemplate) = true := by
    simp [isFile]
  have hremove :
      removeFile (fs ++ [(pathJoin (trimSpace d) HookPrepareCommitMessageTemplate, content)])
        (pathJoin (trimSpace d) HookPrepareCommitMessageTemplate) = fs := by
    simp [removeFile, List.filter_append, filter_ne_of_absent fs _ habs]
  refine ⟨by rw [hinst], ?_, ?_⟩ <;>
    rw [hinst] <;>
    simp [Command.UninstallHook, hd, hpresent, hremove]

/-- C9 witness: the round trip from the empty filesystem at a concrete
resolved hooks directory and template content. -/
theorem C9_witness :
    (Command.InstallHook (exConst (.ok "hooks")) (tmplConst (.ok "T")) [] cPlain).1 =
      .ok () ∧
    (Command.UninstallHook (exConst (.ok "hooks"))
      (Command.InstallHook (exConst (.ok "hooks")) (tmplConst (.ok "T")) [] cPlain).2
      cPlain).1 = .ok () ∧
    (Command.UninstallHook (exConst (.ok "hooks"))
      (Command.InstallHook (exConst (.ok "hooks")) (tmplConst (.ok "T")) [] cPlain).2
      cPlain).2 = [] :=
  C9_hook_roundtrip (exConst (.ok "hooks")) (tmplConst (.ok "T")) [] cPlain "hooks" "T"
    rfl rfl (by decide)

/-- C10: appending WithCommitId or WithDiffList to the options changes no
field of the built Command, so DiffFiles, Commit, GitDir, IsDiffTag,
InstallHook and UninstallHook behave identically with or without them. -/
theorem C10_unused_options (opts : List Option) (v : String) (w : List String) :
    New (opts ++ [WithCommitId v]) = New opts ∧
    New (opts ++ [WithDiffList w]) = New opts ∧
    (∀ (ex : ExecEnv) (m : String) (tmpl : String → Except String String) (fs : FS),
      Command.DiffFiles ex (New (opts ++ [WithCommitId v])) =
        Command.DiffFiles ex (New opts) ∧
      Command.Commit ex (New (opts ++ [WithCommitId v])) m =
        Command.Commit ex (New opts) m ∧
      Command.GitDir ex (New (opts ++ [WithCommitId v])) =
        Command.GitDir ex (New opts) ∧
      Command.IsDiffTag ex (New (opts ++ [WithCommitId v])) =
        Command.IsDiffTag ex (New opts) ∧
      Command.InstallHook ex tmpl fs (New (opts ++ [WithCommitId v])) =
        Command.InstallHook ex tmpl fs (New opts) ∧
      Command.UninstallHook ex fs (New (opts ++ [WithCommitId v])) =
        Command.UninstallHook ex fs (New opts) ∧
      Command.DiffFiles ex (New (opts ++ [WithDiffList w])) =
        Command.DiffFiles ex (New opts) ∧
      Command.Commit ex (New (opts ++ [WithDiffList w])) m =
        Command.Commit ex (New opts) m ∧
      Command.GitDir ex (New (opts ++ [WithDiffList w])) =
        Command.GitDir ex (New opts) ∧
      Command.IsDiffTag ex (New (opts ++ [WithDiffList w])) =
        Command.IsDiffTag ex (New opts) ∧
      Command.InstallHook ex tmpl fs (New (opts ++ [WithDiffList w])) =
        Command.InstallHook ex tmpl fs (New opts) ∧
      Command.UninstallHook ex fs (New (opts ++ [WithDiffList w])) =
        Command.UninstallHook ex fs (New opts)) := by
  have h1 : New (opts ++ [WithCommitId v]) = New opts := by
    simp [New, WithCommitId, List.foldl_append]
  have h2 : New (opts ++ [WithDiffList w]) = New opts := by
    simp [New, WithDiffList, List.foldl_append]
  refine ⟨h1, h2, ?_⟩
  intro ex m tmpl fs
  rw [h1, h2]
  exact ⟨rfl, rfl, rfl, rfl, rfl, rfl, rfl, rfl, rfl, rfl, rfl, rfl⟩

end git
